import Mathlib

/-!
Verification development for the stream-processor / tab-registry core of the
`codestudio` application.

The TypeScript sources are shallowly embedded: JavaScript values flowing
through the stream (parsed JSON records) are modelled by the inductive `Json`
below; the React `useClaudeMessages` hook state becomes the record
`ProcState`, its callback invocations become an explicit event list `PEvent`,
and each handler becomes a pure state-transition function.  JavaScript
builtins used by the code (`JSON.parse`, `JSON.stringify`, truthiness,
string coercion) are modelled on the fragment of JSON the application
exchanges: objects, arrays, strings, booleans, `null` and integer numbers
(the numeric fields occurring in the stream — token counts and tool-call
indices — are integers).
-/

/-- The model of a JavaScript JSON value.  Object fields are kept in
insertion order, as JavaScript preserves it and `JSON.stringify`
serializes in that order. -/
inductive Json where
  | null : Json
  | bool (b : Bool) : Json
  | num (n : Int) : Json
  | str (s : String) : Json
  | arr (items : List Json) : Json
  | obj (fields : List (String × Json)) : Json

/-- Property access `o[k]`: `none` models JavaScript `undefined`
(absent field, or access on a non-object). -/
def Json.getField : Json → String → Option Json
  | .obj fs, k => fs.lookup k
  | _, _ => none

def setFieldList (k : String) (v : Json) : List (String × Json) → List (String × Json)
  | [] => [(k, v)]
  | (k', v') :: rest =>
    if k' == k then (k, v) :: rest else (k', v') :: setFieldList k v rest

/-- Property assignment `o[k] = v` on an object: an existing key keeps its
position, a new key is appended (JavaScript insertion-order semantics).
Assignment on a primitive is a no-op, as in non-strict JavaScript. -/
def Json.setField : Json → String → Json → Json
  | .obj fs, k, v => .obj (setFieldList k v fs)
  | j, _, _ => j

/-- JavaScript truthiness of a value. -/
def jsTruthyV : Json → Bool
  | .null => false
  | .bool b => b
  | .num n => n != 0
  | .str s => s != ""
  | .arr _ => true
  | .obj _ => true

/-- JavaScript truthiness of a possibly-`undefined` value. -/
def jsTruthy : Option Json → Bool
  | none => false
  | some v => jsTruthyV v

/-- JavaScript string coercion `String(v)` (also used by `+` when one side
is a string), on the values the stream actually carries: in this codebase
tool-call indices are numbers and content deltas are strings, so the
array/object cases (which JavaScript renders via `toString`) never arise
and are given their primitive-free renderings. -/
def jsStr : Json → String
  | .null => "null"
  | .bool true => "true"
  | .bool false => "false"
  | .num n => toString n
  | .str s => s
  | .arr _ => ""
  | .obj _ => "[object Object]"

/-- Fallback `x || 0` applied to a usage token field: a present numeric count is
kept (zero is falsy and yields the default `0`, which coincides with the
count itself), anything absent or non-numeric contributes `0`. -/
def tokenCount : Option Json → Int
  | some (.num n) => n
  | _ => 0

def lbrace : Char := Char.ofNat 123
def rbrace : Char := Char.ofNat 125

def escChar (c : Char) : String :=
  if c == '"' then "\\\""
  else if c == '\\' then "\\\\"
  else if c == '\n' then "\\n"
  else if c == '\t' then "\\t"
  else if c == '\r' then "\\r"
  else String.singleton c

def escString (s : String) : String :=
  String.join (s.toList.map escChar)

mutual
/-- Model of `JSON.stringify` on the embedded values: canonical minimal
form — no whitespace, fields in insertion order, strings quoted with the
standard escapes. -/
def stringify : Json → String
  | .null => "null"
  | .bool true => "true"
  | .bool false => "false"
  | .num n => toString n
  | .str s => "\"" ++ escString s ++ "\""
  | .arr items => "[" ++ stringifyItems items ++ "]"
  | .obj fs => "\x7b" ++ stringifyFields fs ++ "\x7d"

def stringifyItems : List Json → String
  | [] => ""
  | [x] => stringify x
  | x :: xs => stringify x ++ "," ++ stringifyItems xs

def stringifyFields : List (String × Json) → String
  | [] => ""
  | [(k, v)] => "\"" ++ escString k ++ "\":" ++ stringify v
  | (k, v) :: fs => "\"" ++ escString k ++ "\":" ++ stringify v ++ "," ++ stringifyFields fs
end

def isWsChar (c : Char) : Bool :=
  c == ' ' || c == '\n' || c == '\t' || c == '\r'

def skipWs : List Char → List Char
  | [] => []
  | c :: cs => if isWsChar c then skipWs cs else c :: cs

def isDigitChar (c : Char) : Bool :=
  '0' ≤ c && c ≤ '9'

def readDigits : List Char → Nat → Nat × List Char
  | [], acc => (acc, [])
  | c :: cs, acc =>
    if isDigitChar c then readDigits cs (acc * 10 + (c.toNat - '0'.toNat))
    else (acc, c :: cs)

/-- Reads the body of a JSON string literal after the opening quote, up to
the closing quote, decoding the escapes `stringify` can produce. -/
def readStringBody : List Char → Option (String × List Char)
  | [] => none
  | c :: cs =>
    if c == '"' then some ("", cs)
    else if c == '\\' then
      match cs with
      | [] => none
      | e :: cs' =>
        let dec : Option Char :=
          if e == '"' then some '"'
          else if e == '\\' then some '\\'
          else if e == '/' then some '/'
          else if e == 'n' then some '\n'
          else if e == 't' then some '\t'
          else if e == 'r' then some '\r'
          else none
        match dec with
        | none => none
        | some d =>
          match readStringBody cs' with
          | none => none
          | some (rest, cs'') => some (String.singleton d ++ rest, cs'')
    else
      match readStringBody cs with
      | none => none
      | some (rest, cs') => some (String.singleton c ++ rest, cs')

mutual
/-- One JSON value, by recursive descent; `fuel` bounds the nesting depth
(chosen larger than the input length by the entry point, so it never runs
out on a genuine parse). -/
def parseVal : Nat → List Char → Option (Json × List Char)
  | 0, _ => none
  | _ + 1, [] => none
  | fuel + 1, c :: cs =>
    if c == 'n' then
      match cs with
      | 'u' :: 'l' :: 'l' :: cs' => some (Json.null, cs')
      | _ => none
    else if c == 't' then
      match cs with
      | 'r' :: 'u' :: 'e' :: cs' => some (Json.bool true, cs')
      | _ => none
    else if c == 'f' then
      match cs with
      | 'a' :: 'l' :: 's' :: 'e' :: cs' => some (Json.bool false, cs')
      | _ => none
    else if c == '"' then
      match readStringBody cs with
      | none => none
      | some (s, cs') => some (Json.str s, cs')
    else if c == '-' then
      match cs with
      | d :: cs' =>
        if isDigitChar d then
          let r := readDigits cs' (d.toNat - '0'.toNat)
          some (Json.num (-(Int.ofNat r.fst)), r.snd)
        else none
      | [] => none
    else if isDigitChar c then
      let r := readDigits cs (c.toNat - '0'.toNat)
      some (Json.num (Int.ofNat r.fst), r.snd)
    else if c == '[' then
      match skipWs cs with
      | ']' :: cs' => some (Json.arr [], cs')
      | cs' =>
        match parseItems fuel cs' with
        | none => none
        | some (items, cs'') =>
          match skipWs cs'' with
          | ']' :: cs''' => some (Json.arr items, cs''')
          | _ => none
    else if c == lbrace then
      match skipWs cs with
      | r :: cs' =>
        if r == rbrace then some (Json.obj [], cs')
        else
          match parseFields fuel (r :: cs') with
          | none => none
          | some (fs, cs'') =>
            match skipWs cs'' with
            | r' :: cs''' =>
              if r' == rbrace then some (Json.obj fs, cs''') else none
            | [] => none
      | [] => none
    else none

def parseItems : Nat → List Char → Option (List Json × List Char)
  | 0, _ => none
  | fuel + 1, cs =>
    match parseVal fuel (skipWs cs) with
    | none => none
    | some (v, cs') =>
      match skipWs cs' with
      | ',' :: cs'' =>
        match parseItems fuel cs'' with
        | none => none
        | some (vs, cs''') => some (v :: vs, cs''')
      | rest => some ([v], rest)

def parseFields : Nat → List Char → Option (List (String × Json) × List Char)
  | 0, _ => none
  | fuel + 1, cs =>
    match skipWs cs with
    | '"' :: cs' =>
      match readStringBody cs' with
      | none => none
      | some (k, cs'') =>
        match skipWs cs'' with
        | ':' :: cs''' =>
          match parseVal fuel (skipWs cs''') with
          | none => none
          | some (v, rest) =>
            match skipWs rest with
            | ',' :: rest' =>
              match parseFields fuel rest' with
              | none => none
              | some (fs, rest'') => some ((k, v) :: fs, rest'')
            | rest' => some ([(k, v)], rest')
        | _ => none
    | _ => none
end

/-- Model of `JSON.parse`: the whole input must be one JSON value,
surrounded only by whitespace; anything else raises (is `none`). -/
def jsonParse (s : String) : Option Json :=
  match parseVal (s.length + 1) (skipWs s.toList) with
  | none => none
  | some (v, rest) => if skipWs rest == [] then some v else none

theorem jsonParse_spaced_obj :
    jsonParse "\x7b\"type\": \"output\"\x7d" = some (Json.obj [("type", Json.str "output")]) := by rfl

theorem jsonParse_open_brace_fails : jsonParse "\x7b" = none := by rfl

theorem jsonParse_mixed_values :
    jsonParse " \x7b\"a\":[1,-2,null,true,\"x\"]\x7d " =
      some (Json.obj [("a", Json.arr
        [Json.num 1, Json.num (-2), Json.null, Json.bool true, Json.str "x"])]) := by rfl

theorem stringify_canonical_obj :
    stringify (Json.obj [("type", Json.str "output")]) = "\x7b\"type\":\"output\"\x7d" := by rfl

/-!
## Stream Processor (`useClaudeMessages` in the source)

The hook state `(messages, rawJsonlOutput, isStreaming, currentSessionId,
accumulatedContentRef)` becomes `ProcState`; the optional callbacks
`onStreamingChange` / `onTokenUpdate` / `onSessionInfo` become emitted
`PEvent`s.
-/

structure ProcState where
  messages : List Json
  rawJsonlOutput : List String
  isStreaming : Bool
  currentSessionId : Option Json
  accumulatedContent : List (String × String)

/-- Notification attempts made by `handleMessage` through its option
callbacks, in call order. -/
inductive PEvent where
  | streamingChange (b : Bool) (sid : Option Json)
  | tokenUpdate (n : Int)
  | sessionInfo (sid pid : Json)

/-- Buffer read `accumulatedContentRef.current[key]` (`undefined` when absent). -/
def lookupAcc : List (String × String) → String → Option String
  | [], _ => none
  | (k, v) :: rest, key => if k == key then some v else lookupAcc rest key

/-- Buffer write `accumulatedContentRef.current[key] = v`. -/
def setAcc : List (String × String) → String → String → List (String × String)
  | [], key, v => [(key, v)]
  | (k, w) :: rest, key, v =>
    if k == key then (key, v) :: rest else (k, w) :: setAcc rest key v

/-- Tag test `(message as any).type === t`. -/
def typeIs (m : Json) (t : String) : Bool :=
  match m.getField "type" with
  | some (Json.str s) => s == t
  | _ => false

/-- Optional chain `message.message?.usage`. -/
def usageOf (m : Json) : Option Json :=
  match m.getField "message" with
  | some mm => mm.getField "usage"
  | none => none

/-- One iteration of the `message.tool_calls.forEach` body: when the tool
call has truthy `content` and a defined `partial_tool_call_index`, append
the content to the accumulation buffer under key
`"tool-" + index` and write the running concatenation back onto the tool
call as `accumulated_content`.  (`!accumulatedContentRef.current[key]`
initializes a falsy entry to `""`, which coincides with `getD ""` since
buffer entries are strings.) -/
def processFrag (buf : List (String × String)) (tc : Json) :
    Json × List (String × String) :=
  match tc.getField "content", tc.getField "partial_tool_call_index" with
  | some c, some idx =>
    if jsTruthyV c then
      let key := "tool-" ++ jsStr idx
      let acc := ((lookupAcc buf key).getD "") ++ jsStr c
      (tc.setField "accumulated_content" (Json.str acc), setAcc buf key acc)
    else (tc, buf)
  | _, _ => (tc, buf)

def processFrags : List Json → List (String × String) →
    List Json × List (String × String)
  | [], buf => ([], buf)
  | tc :: rest, buf =>
    let r := processFrag buf tc
    let rr := processFrags rest r.snd
    (r.fst :: rr.fst, rr.snd)

/-- The `if/else if` dispatch at the top of `handleMessage`: returns the
(possibly annotated) message, the updated state, and the notifications
fired by the taken branch. -/
def dispatchMsg (m : Json) (s : ProcState) : Json × ProcState × List PEvent :=
  if typeIs m "start" then
    (m, { s with accumulatedContent := [], isStreaming := true },
      [PEvent.streamingChange true s.currentSessionId])
  else if typeIs m "partial" then
    match m.getField "tool_calls" with
    | some (Json.arr tcs) =>
      if tcs.length > 0 then
        let r := processFrags tcs s.accumulatedContent
        (m.setField "tool_calls" (Json.arr r.fst),
          { s with accumulatedContent := r.snd }, [])
      else (m, s, [])
    | _ => (m, s, [])
  else if typeIs m "response" && jsTruthy (usageOf m) then
    let totalTokens := tokenCount ((usageOf m).bind (Json.getField · "input_tokens")) +
                       tokenCount ((usageOf m).bind (Json.getField · "output_tokens"))
    (m, s, [PEvent.tokenUpdate totalTokens])
  else if typeIs m "error" || typeIs m "response" then
    (m, { s with isStreaming := false },
      [PEvent.streamingChange false s.currentSessionId])
  else if typeIs m "output" then
    (m, s, [])
  else
    (m, s, [])

/-- The `handleMessage` handler: dispatch on the message type, append the message to
`messages` and its `JSON.stringify` to `rawJsonlOutput`, then extract
session identity from a `session_info` record whose `session_id` and
`project_id` are both truthy. -/
def handleMessage (m : Json) (s : ProcState) : ProcState × List PEvent :=
  let d := dispatchMsg m s
  let m1 := d.fst
  let s1 := d.snd.fst
  let evs := d.snd.snd
  let s2 := { s1 with messages := s1.messages ++ [m1],
                      rawJsonlOutput := s1.rawJsonlOutput ++ [stringify m1] }
  if typeIs m1 "session_info" then
    match m1.getField "session_id", m1.getField "project_id" with
    | some sid, some pid =>
      if jsTruthyV sid && jsTruthyV pid then
        ({ s2 with currentSessionId := some sid },
          evs ++ [PEvent.sessionInfo sid pid])
      else (s2, evs)
    | _, _ => (s2, evs)
  else (s2, evs)

/-- The transport listener: `JSON.parse` the raw payload and feed it to
`handleMessage`; a parse failure is logged and the record dropped. -/
def ingestLine (raw : String) (s : ProcState) : ProcState × List PEvent :=
  match jsonParse raw with
  | some m => handleMessage m s
  | none => (s, [])

def ingestList : List Json → ProcState → ProcState × List PEvent
  | [], s => (s, [])
  | m :: rest, s =>
    ((ingestList rest (handleMessage m s).fst).fst,
     (handleMessage m s).snd ++ (ingestList rest (handleMessage m s).fst).snd)

def ingestRawList : List String → ProcState → ProcState × List PEvent
  | [], s => (s, [])
  | l :: rest, s =>
    ((ingestRawList rest (ingestLine l s).fst).fst,
     (ingestLine l s).snd ++ (ingestRawList rest (ingestLine l s).fst).snd)

/-- The `clearMessages` handler. -/
def clearMessages (s : ProcState) : ProcState :=
  { s with messages := [], rawJsonlOutput := [], accumulatedContent := [] }

/-- The per-line loop of `loadMessages`: parse each line, keep the parsed
record and the original line, skip lines that fail to parse. -/
def processLines : List String → List Json × List String
  | [] => ([], [])
  | l :: rest =>
    match jsonParse l with
    | some m => (m :: (processLines rest).fst, l :: (processLines rest).snd)
    | none => processLines rest

/-- The `loadMessages` body on the fetched blob: split on newlines, drop
lines that are blank after trimming, parse the rest line by line. -/
def loadMessagesBlob (output : String) : List Json × List String :=
  processLines ((output.splitOn "\n").filter (fun l => l.trim != ""))

/-- The `loadMessages` state effect: the parsed messages and their raw lines
replace the in-memory logs wholesale. -/
def loadFromStorage (output : String) (s : ProcState) : ProcState :=
  { s with messages := (loadMessagesBlob output).fst,
           rawJsonlOutput := (loadMessagesBlob output).snd }

/-- The initial hook state: empty logs, not streaming, no session id,
empty accumulation buffer. -/
def initProc : ProcState := ⟨[], [], false, none, []⟩

/-- The record `\x7b"type":"start"\x7d`. -/
def mkStart : Json := Json.obj [("type", Json.str "start")]

/-- A `partial`-typed record carrying one tool-call fragment with the
given index and content delta. -/
def mkFragMsg (i : Int) (c : String) : Json :=
  Json.obj [("type", Json.str "partial"),
    ("tool_calls", Json.arr [Json.obj
      [("partial_tool_call_index", Json.num i), ("content", Json.str c)]])]

/-- The same fragment record after `handleMessage` has attached the
running concatenation as `accumulated_content`. -/
def fragLogged (i : Int) (c : String) (acc : String) : Json :=
  Json.obj [("type", Json.str "partial"),
    ("tool_calls", Json.arr [Json.obj
      [("partial_tool_call_index", Json.num i), ("content", Json.str c),
       ("accumulated_content", Json.str acc)]])]

/-- The accumulation-buffer key `"tool-" + index`. -/
def fragKey (i : Int) : String := "tool-" ++ toString i

def optF (k : String) : Option Json → List (String × Json)
  | none => []
  | some v => [(k, v)]

/-- A `response`-typed record whose `message.usage` carries the given
(possibly absent) token counts. -/
def mkResponse (i o : Option Int) : Json :=
  Json.obj [("type", Json.str "response"),
    ("message", Json.obj [("usage", Json.obj
      (optF "input_tokens" (i.map Json.num) ++ optF "output_tokens" (o.map Json.num)))])]

/-- A `session_info`-typed record with the given (possibly absent)
identity fields. -/
def mkSessionInfo (sid pid : Option Json) : Json :=
  Json.obj ([("type", Json.str "session_info")] ++
    optF "session_id" sid ++ optF "project_id" pid)

/-- Reads `accumulated_content` off the first tool-call fragment of a
logged record (`undefined` when never attached). -/
def firstFragAcc (m : Json) : Option Json :=
  match m.getField "tool_calls" with
  | some (Json.arr (tc :: _)) => tc.getField "accumulated_content"
  | _ => none

/-- Ordered concatenation of a list of content deltas. -/
def concatAll : List String → String
  | [] => ""
  | c :: cs => c ++ concatAll cs

/-!
## Tab / Session Registry

The event handlers `handleOpenSessionInTab` and
`handleClaudeSessionSelected` live in `TabContent.tsx`; the tab state
store they drive (`useTabState`: `findTabBySessionId`, `createChatTab`,
`updateTab`, and the `switch-to-tab` switch) is not among the provided
sources, so those operations are modelled from the spec (§4.2).
-/

structure SessionRec where
  id : String
  project_path : String

structure Tab where
  id : Nat
  type : String
  title : String
  sessionId : Option String
  sessionData : Option SessionRec
  initialProjectPath : Option String

structure TabRegistry where
  tabs : List Tab
  activeTabId : Option Nat
  nextId : Nat

/-- Modelled from the spec: `findTabBySessionId(sessionId)` of the tab
state store (`useTabState`), whose implementation is not in the provided
sources — "linear lookup; used to implement the session-deduplication
invariant". -/
def findTabBySessionId (reg : TabRegistry) (sid : String) : Option Tab :=
  reg.tabs.find? (fun t => t.sessionId == some sid)

/-- Modelled from the spec: `updateTab(tabId, partialFields)` of the tab
state store — "merges fields into the addressed tab; fails silently
(no-op) if `tabId` does not exist".  The partial-field merge is passed as
an update function on the tab. -/
def updateTab (reg : TabRegistry) (tid : Nat) (f : Tab → Tab) : TabRegistry :=
  { reg with tabs := reg.tabs.map (fun t => if t.id == tid then f t else t) }

/-- Modelled from the spec: `switchTo(tabId)` — the handling of the
`switch-to-tab` bus event — "sets `activeTabId`". -/
def switchTo (reg : TabRegistry) (tid : Nat) : TabRegistry :=
  { reg with activeTabId := some tid }

/-- Modelled from the spec: `createChatTab(sessionId, title, projectPath)`
of the tab state store — "appends a new tab, assigns a fresh unique id,
makes it active", of `chat` type bound to the session. -/
def createChatTab (reg : TabRegistry) (sid title projectPath : String) :
    Nat × TabRegistry :=
  let t : Tab :=
    { id := reg.nextId, type := "chat", title := title,
      sessionId := some sid, sessionData := none,
      initialProjectPath := some projectPath }
  (reg.nextId,
   { tabs := reg.tabs ++ [t],
     activeTabId := some reg.nextId, nextId := reg.nextId + 1 })

/-- Title derivation `session.project_path.split('/').pop() || 'Session'`. -/
def projTitle (p : String) : String :=
  let last := ((p.splitOn "/").getLast?).getD ""
  if last == "" then "Session" else last

/-- The `open-session-in-tab` handler in `TabContent.tsx`. -/
def handleOpenSessionInTab (sess : SessionRec) (reg : TabRegistry) : TabRegistry :=
  match findTabBySessionId reg sess.id with
  | some t =>
    switchTo (updateTab reg t.id (fun tb =>
      { tb with sessionData := some sess, title := projTitle sess.project_path })) t.id
  | none =>
    let r := createChatTab reg sess.id (projTitle sess.project_path) sess.project_path
    updateTab r.snd r.fst (fun tb =>
      { tb with sessionData := some sess,
                initialProjectPath := some sess.project_path })

/-- The `claude-session-selected` handler in `TabContent.tsx`. -/
def handleClaudeSessionSelected (sess : SessionRec) (reg : TabRegistry) : TabRegistry :=
  match findTabBySessionId reg sess.id with
  | some t =>
    switchTo (updateTab reg t.id (fun tb =>
      { tb with sessionData := some sess, title := projTitle sess.project_path })) t.id
  | none =>
    let mkNew :=
      let r := createChatTab reg sess.id (projTitle sess.project_path) sess.project_path
      updateTab r.snd r.fst (fun tb =>
        { tb with sessionData := some sess,
                  initialProjectPath := some sess.project_path })
    match reg.tabs.find? (fun t => some t.id == reg.activeTabId) with
    | some cur =>
      if cur.type == "projects" then
        updateTab reg cur.id (fun tb =>
          { tb with type := "chat", title := projTitle sess.project_path,
                    sessionId := some sess.id, sessionData := some sess,
                    initialProjectPath := some sess.project_path })
      else mkNew
    | none => mkNew

/-!
## MCP server-tools persistence (`MCPServerList.tsx`)
-/

/-- The mount-time load of the `mcp_server_tools` key: the server-tools
state starts as the empty mapping and is overwritten only when the stored
value is a truthy string that parses; a parse failure is caught and
logged, leaving the state empty. -/
def loadServerTools (stored : Option String) : Json :=
  match stored with
  | none => Json.obj []
  | some s =>
    if s != "" then
      match jsonParse s with
      | some j => j
      | none => Json.obj []
    else Json.obj []

/-- Object spread `\x7b...obj, [k]: v\x7d`: existing key updated in place,
new key appended; spreading a primitive contributes no fields. -/
def spreadSet (j : Json) (k : String) (v : Json) : Json :=
  match j with
  | Json.obj fs => Json.obj (setFieldList k v fs)
  | _ => Json.obj [(k, v)]

/-- The success path of `handleTestConnection`: recompute the verified
tool list from the fetched status, merge it into the server-tools
mapping, and write the mapping back to the `mcp_server_tools` key.
Returns the new state together with the key/value pair written to the
local store. -/
def handleTestConnection (name : String) (running : Bool) (serverTools : Json) :
    Json × (String × String) :=
  let tools : List Json := if running then [Json.str "fetch", Json.str "list"] else []
  let newTools := spreadSet serverTools name (Json.arr tools)
  (newTools, ("mcp_server_tools", stringify newTools))

/-- The registry of the spec's §8 example: two chat tabs bound to
sessions `s1` and `s2`. -/
def tabS1 : Tab :=
  { id := 1, type := "chat", title := "A", sessionId := some "s1",
    sessionData := none, initialProjectPath := none }

def tabS2 : Tab :=
  { id := 2, type := "chat", title := "B", sessionId := some "s2",
    sessionData := none, initialProjectPath := none }

def regTwo : TabRegistry := { tabs := [tabS1, tabS2], activeTabId := some 2, nextId := 3 }

/-!
## Helper lemmas
-/

theorem typeIs_excl {m : Json} {t t' : String} (h : typeIs m t = true)
    (hne : t' ≠ t) : typeIs m t' = false := by
  unfold typeIs at h ⊢
  split at h
  case h_1 s heq =>
    have hst : s = t := by simpa using h
    subst hst
    simp only [beq_eq_false_iff_ne]
    exact fun hh => hne hh.symm
  case h_2 => simp at h

theorem lookupAcc_setAcc (b : List (String × String)) (k v : String) :
    lookupAcc (setAcc b k v) k = some v := by
  induction b with
  | nil => simp [setAcc, lookupAcc]
  | cons p rest ih =>
    obtain ⟨k', w⟩ := p
    by_cases hk : k' == k
    · simp [setAcc, hk, lookupAcc]
    · simp [setAcc, hk, lookupAcc, ih]

theorem ingestList_cons (m : Json) (rest : List Json) (s : ProcState) :
    ingestList (m :: rest) s =
      ((ingestList rest (handleMessage m s).fst).fst,
       (handleMessage m s).snd ++ (ingestList rest (handleMessage m s).fst).snd) := by
  rfl

theorem ingestList_append (l₁ l₂ : List Json) (s : ProcState) :
    (ingestList (l₁ ++ l₂) s).fst = (ingestList l₂ (ingestList l₁ s).fst).fst := by
  induction l₁ generalizing s with
  | nil => rfl
  | cons m rest ih => simp [ingestList_cons, ih, ingestList]

/-!
## Claim theorems
-/

/-- C9: `clearMessages` resets exactly the message log, the raw-line log
and the accumulation buffer to empty, leaving the streaming flag and the
captured session id at their prior values. -/
theorem clearMessages_resets_logs_only (s : ProcState) :
    (clearMessages s).messages = [] ∧
    (clearMessages s).rawJsonlOutput = [] ∧
    (clearMessages s).accumulatedContent = [] ∧
    (clearMessages s).isStreaming = s.isStreaming ∧
    (clearMessages s).currentSessionId = s.currentSessionId :=
  ⟨rfl, rfl, rfl, rfl, rfl⟩

/-- C5: `loadMessages` is idempotent — loading the same stored blob twice
leaves the same logs as loading it once — and it replaces the in-memory
logs wholesale: the resulting logs are a function of the blob alone,
independent of the logs previously held. -/
theorem loadFromStorage_idempotent_wholesale (blob : String) (s : ProcState) :
    loadFromStorage blob (loadFromStorage blob s) = loadFromStorage blob s ∧
    (loadFromStorage blob s).messages = (loadMessagesBlob blob).fst ∧
    (loadFromStorage blob s).rawJsonlOutput = (loadMessagesBlob blob).snd :=
  ⟨rfl, rfl, rfl⟩

/-- C6: a raw payload that fails JSON parsing is discarded with the
processor state unchanged and no notification fired; the rest of the raw
stream is processed exactly as if the malformed line were absent; and a
malformed line inside a stored blob is skipped by the storage loader
while every other line is still loaded. -/
theorem malformed_line_skipped (raw : String) (s : ProcState)
    (h : jsonParse raw = none) :
    ingestLine raw s = (s, []) ∧
    (∀ rest, ingestRawList (raw :: rest) s = ingestRawList rest s) ∧
    (∀ pre post, processLines (pre ++ raw :: post) = processLines (pre ++ post)) := by
  have h1 : ingestLine raw s = (s, []) := by
    unfold ingestLine
    rw [h]
  refine ⟨h1, ?_, ?_⟩
  · intro rest
    simp only [ingestRawList, h1, List.nil_append]
  · intro pre post
    induction pre with
    | nil =>
      show processLines (raw :: post) = processLines post
      simp only [processLines, h]
    | cons l pre ih =>
      show processLines (l :: (pre ++ raw :: post)) = processLines (l :: (pre ++ post))
      simp only [processLines, ih]

/-- Witness for C6 at a concrete malformed payload. -/
theorem malformed_line_skipped_witness :
    jsonParse "not json" = none ∧ ingestLine "not json" initProc = (initProc, []) :=
  ⟨rfl, (malformed_line_skipped "not json" initProc rfl).1⟩

/-- C8: reading the persisted `mcp_server_tools` key at mount treats an
absent value as the empty mapping and a value that fails JSON parsing as
empty as well, and each verification action writes the updated mapping
back under the same key. -/
theorem server_tools_load_robust_and_persisted :
    loadServerTools none = Json.obj [] ∧
    (∀ s, jsonParse s = none → loadServerTools (some s) = Json.obj []) ∧
    (∀ name running st,
      (handleTestConnection name running st).snd =
        ("mcp_server_tools", stringify (handleTestConnection name running st).fst)) := by
  refine ⟨rfl, ?_, ?_⟩
  · intro s h
    simp only [loadServerTools]
    split
    · rw [h]
    · rfl
  · intro name running st
    rfl

/-- Witness for C8 at a concrete corrupt stored value. -/
theorem server_tools_load_robust_witness :
    jsonParse "oops" = none ∧ loadServerTools (some "oops") = Json.obj [] :=
  ⟨rfl, (server_tools_load_robust_and_persisted).2.1 "oops" rfl⟩

theorem dispatch_response_usage (m : Json) (s : ProcState)
    (h1 : typeIs m "response" = true) (h2 : jsTruthy (usageOf m) = true) :
    dispatchMsg m s =
      (m, s, [PEvent.tokenUpdate
        (tokenCount ((usageOf m).bind (Json.getField · "input_tokens")) +
         tokenCount ((usageOf m).bind (Json.getField · "output_tokens")))]) := by
  have hs := typeIs_excl h1 (by decide : "start" ≠ "response")
  have hp := typeIs_excl h1 (by decide : "partial" ≠ "response")
  simp [dispatchMsg, hs, hp, h1, h2]

theorem dispatch_session_info (m : Json) (s : ProcState)
    (h : typeIs m "session_info" = true) : dispatchMsg m s = (m, s, []) := by
  have h1 := typeIs_excl h (by decide : "start" ≠ "session_info")
  have h2 := typeIs_excl h (by decide : "partial" ≠ "session_info")
  have h3 := typeIs_excl h (by decide : "response" ≠ "session_info")
  have h4 := typeIs_excl h (by decide : "error" ≠ "session_info")
  have h5 := typeIs_excl h (by decide : "output" ≠ "session_info")
  simp [dispatchMsg, h1, h2, h3, h4, h5]

/-- C7: a `response` whose `usage` is present fires `onTokenUpdate`
exactly once, with the sum of the input and output token counts, a
missing count contributing `0`; in particular `input_tokens 10` and
`output_tokens 5` notify `15`. -/
theorem response_usage_token_update_once :
    (∀ (m : Json) (s : ProcState), typeIs m "response" = true →
       jsTruthy (usageOf m) = true →
       (handleMessage m s).snd =
         [PEvent.tokenUpdate
           (tokenCount ((usageOf m).bind (Json.getField · "input_tokens")) +
            tokenCount ((usageOf m).bind (Json.getField · "output_tokens")))]) ∧
    (∀ (i o : Option Int) (s : ProcState),
       (handleMessage (mkResponse i o) s).snd =
         [PEvent.tokenUpdate (i.getD 0 + o.getD 0)]) := by
  have main : ∀ (m : Json) (s : ProcState), typeIs m "response" = true →
      jsTruthy (usageOf m) = true →
      (handleMessage m s).snd =
        [PEvent.tokenUpdate
          (tokenCount ((usageOf m).bind (Json.getField · "input_tokens")) +
           tokenCount ((usageOf m).bind (Json.getField · "output_tokens")))] := by
    intro m s h1 h2
    have hsi := typeIs_excl h1 (by decide : "session_info" ≠ "response")
    simp [handleMessage, dispatch_response_usage m s h1 h2, hsi]
  refine ⟨main, ?_⟩
  intro i o s
  have h1 : typeIs (mkResponse i o) "response" = true := rfl
  have h2 : jsTruthy (usageOf (mkResponse i o)) = true := rfl
  have := main (mkResponse i o) s h1 h2
  rw [this]
  rcases i with _ | a <;> rcases o with _ | b <;> simp [mkResponse, usageOf,
    Json.getField, optF, tokenCount, List.lookup]

/-- Witness for C7 at the spec's example counts. -/
theorem response_usage_token_update_once_witness :
    typeIs (mkResponse (some 10) (some 5)) "response" = true ∧
    jsTruthy (usageOf (mkResponse (some 10) (some 5))) = true ∧
    (handleMessage (mkResponse (some 10) (some 5)) initProc).snd =
      [PEvent.tokenUpdate 15] :=
  ⟨rfl, rfl,
   response_usage_token_update_once.1 (mkResponse (some 10) (some 5)) initProc rfl rfl⟩

/-- C1 (code evaluation): after ingesting `start` followed by a
`response` carrying usage, the streaming flag is still `true` and no
`onStreamingChange(false, ·)` notification has fired — the terminal
`else if` that names `"response"` is shadowed by the usage branch, so a
usage-bearing response never clears the flag. -/
theorem response_with_usage_leaves_streaming_true :
    (ingestList [mkStart, mkResponse (some 10) (some 5)] initProc).fst.isStreaming = true ∧
    (ingestList [mkStart, mkResponse (some 10) (some 5)] initProc).snd =
      [PEvent.streamingChange true none, PEvent.tokenUpdate 15] :=
  ⟨rfl, rfl⟩

/-- C10: a `session_info` record establishes session identity (firing
`onSessionInfo` and capturing the session id) exactly when both its
`session_id` and `project_id` are present and truthy; lacking either, it
is still appended to the message log but captures no identity and fires
no notification. -/
theorem session_info_requires_both_ids (m : Json) (s : ProcState)
    (h : typeIs m "session_info" = true) :
    (∀ sid pid, m.getField "session_id" = some sid →
       m.getField "project_id" = some pid →
       jsTruthyV sid = true → jsTruthyV pid = true →
       handleMessage m s =
         ({ s with messages := s.messages ++ [m],
                   rawJsonlOutput := s.rawJsonlOutput ++ [stringify m],
                   currentSessionId := some sid },
          [PEvent.sessionInfo sid pid])) ∧
    (jsTruthy (m.getField "session_id") = false ∨
       jsTruthy (m.getField "project_id") = false →
       handleMessage m s =
         ({ s with messages := s.messages ++ [m],
                   rawJsonlOutput := s.rawJsonlOutput ++ [stringify m] }, [])) := by
  have hd := dispatch_session_info m s h
  constructor
  · intro sid pid hsid hpid hts htp
    simp [handleMessage, hd, h, hsid, hpid, hts, htp]
  · intro hor
    cases hsid : m.getField "session_id" with
    | none => simp [handleMessage, hd, h, hsid]
    | some sid =>
      cases hpid : m.getField "project_id" with
      | none => simp [handleMessage, hd, h, hsid, hpid]
      | some pid =>
        rcases hor with hf | hf
        · rw [hsid] at hf
          simp only [jsTruthy] at hf
          simp [handleMessage, hd, h, hsid, hpid, hf]
        · rw [hpid] at hf
          simp only [jsTruthy] at hf
          simp [handleMessage, hd, h, hsid, hpid, hf]

/-- Witness for C10: one record carrying both ids, one lacking
`project_id`. -/
theorem session_info_requires_both_ids_witness :
    typeIs (mkSessionInfo (some (Json.str "s1")) (some (Json.str "p1"))) "session_info" = true ∧
    handleMessage (mkSessionInfo (some (Json.str "s1")) (some (Json.str "p1"))) initProc =
      ({ initProc with
           messages := [mkSessionInfo (some (Json.str "s1")) (some (Json.str "p1"))],
           rawJsonlOutput :=
             [stringify (mkSessionInfo (some (Json.str "s1")) (some (Json.str "p1")))],
           currentSessionId := some (Json.str "s1") },
       [PEvent.sessionInfo (Json.str "s1") (Json.str "p1")]) ∧
    handleMessage (mkSessionInfo (some (Json.str "s1")) none) initProc =
      ({ initProc with
           messages := [mkSessionInfo (some (Json.str "s1")) none],
           rawJsonlOutput := [stringify (mkSessionInfo (some (Json.str "s1")) none)] },
       []) :=
  ⟨rfl,
   (session_info_requires_both_ids
      (mkSessionInfo (some (Json.str "s1")) (some (Json.str "p1"))) initProc rfl).1
     (Json.str "s1") (Json.str "p1") rfl rfl rfl rfl,
   (session_info_requires_both_ids
      (mkSessionInfo (some (Json.str "s1")) none) initProc rfl).2
     (Or.inr rfl)⟩

theorem dispatch_preserves_logs (m : Json) (s : ProcState) :
    (dispatchMsg m s).snd.fst.messages = s.messages ∧
    (dispatchMsg m s).snd.fst.rawJsonlOutput = s.rawJsonlOutput := by
  constructor <;>
    · unfold dispatchMsg
      repeat' split <;> try rfl

/-- C3 (counterexample): ingesting the well-formed payload
`\x7b"type": "output"\x7d` — note the interior space — stores the
re-serialized record `\x7b"type":"output"\x7d` in the raw-line log, not
the original payload string. -/
theorem raw_log_not_verbatim :
    (ingestLine "\x7b\"type\": \"output\"\x7d" initProc).fst.rawJsonlOutput =
      ["\x7b\"type\":\"output\"\x7d"] ∧
    "\x7b\"type\":\"output\"\x7d" ≠ "\x7b\"type\": \"output\"\x7d" :=
  ⟨rfl, by decide⟩

/-- C3 (amended): every successfully parsed record, regardless of kind,
is appended to the message log in arrival order (exactly one element per
record, after any fragment annotation), and the live raw-line log stores
the JSON re-serialization of that record — which coincides with the
original payload only when the payload is already canonical; the storage
loader, by contrast, retains exactly the original well-formed lines. -/
theorem every_record_appended_raw_log_restringified :
    (∀ (m : Json) (s : ProcState),
       (handleMessage m s).fst.messages = s.messages ++ [(dispatchMsg m s).fst] ∧
       (handleMessage m s).fst.rawJsonlOutput =
         s.rawJsonlOutput ++ [stringify (dispatchMsg m s).fst]) ∧
    (∀ ls : List String,
       (processLines ls).snd = ls.filter (fun l => (jsonParse l).isSome)) := by
  constructor
  · intro m s
    obtain ⟨hm, hr⟩ := dispatch_preserves_logs m s
    unfold handleMessage
    dsimp only
    constructor <;>
      · repeat' split <;> first
          | rfl
          | simp [hm, hr]
          | (split <;> rfl)
  · intro ls
    induction ls with
    | nil => rfl
    | cons l rest ih =>
      cases hp : jsonParse l with
      | none => simp [processLines, hp, ih, List.filter]
      | some v => simp [processLines, hp, ih, List.filter]

/-- C4: when an `open-session-in-tab` or `claude-session-selected` event
names a session already bound to an existing tab, no tab is created or
removed and no tab's session binding changes (so a session id still
appears on at most one tab), and the active tab switches to the existing
one. -/
theorem open_session_existing_tab_no_duplicate
    (sess : SessionRec) (reg : TabRegistry) (t : Tab)
    (h : findTabBySessionId reg sess.id = some t) :
    ((handleOpenSessionInTab sess reg).tabs.map Tab.id = reg.tabs.map Tab.id ∧
     (handleOpenSessionInTab sess reg).tabs.map Tab.sessionId = reg.tabs.map Tab.sessionId ∧
     (handleOpenSessionInTab sess reg).activeTabId = some t.id) ∧
    ((handleClaudeSessionSelected sess reg).tabs.map Tab.id = reg.tabs.map Tab.id ∧
     (handleClaudeSessionSelected sess reg).tabs.map Tab.sessionId = reg.tabs.map Tab.sessionId ∧
     (handleClaudeSessionSelected sess reg).activeTabId = some t.id) := by
  have hmap : ∀ {α : Type} (g : Tab → α) (f : Tab → Tab), (∀ tb, g (f tb) = g tb) →
      ∀ (ts : List Tab) (tid : Nat),
        (ts.map (fun tb => if tb.id == tid then f tb else tb)).map g = ts.map g := by
    intro α g f hf ts tid
    induction ts with
    | nil => rfl
    | cons a rest ih =>
      simp only [List.map_cons, ih]
      by_cases hc : (a.id == tid) = true
      · simp [hc, hf]
      · simp [hc]
  constructor
  · unfold handleOpenSessionInTab
    rw [h]
    exact ⟨hmap Tab.id
             (fun tb => { tb with sessionData := some sess,
                                  title := projTitle sess.project_path })
             (fun _ => rfl) reg.tabs t.id,
           hmap Tab.sessionId
             (fun tb => { tb with sessionData := some sess,
                                  title := projTitle sess.project_path })
             (fun _ => rfl) reg.tabs t.id, rfl⟩
  · unfold handleClaudeSessionSelected
    rw [h]
    exact ⟨hmap Tab.id
             (fun tb => { tb with sessionData := some sess,
                                  title := projTitle sess.project_path })
             (fun _ => rfl) reg.tabs t.id,
           hmap Tab.sessionId
             (fun tb => { tb with sessionData := some sess,
                                  title := projTitle sess.project_path })
             (fun _ => rfl) reg.tabs t.id, rfl⟩

/-- Witness for C4 on the spec's two-tab example registry. -/
theorem open_session_existing_tab_no_duplicate_witness :
    findTabBySessionId regTwo "s1" = some tabS1 ∧
    (handleOpenSessionInTab ⟨"s1", "/p/proj"⟩ regTwo).tabs.map Tab.id = [1, 2] ∧
    (handleOpenSessionInTab ⟨"s1", "/p/proj"⟩ regTwo).activeTabId = some 1 ∧
    (handleClaudeSessionSelected ⟨"s1", "/p/proj"⟩ regTwo).activeTabId = some 1 := by
  have h := open_session_existing_tab_no_duplicate ⟨"s1", "/p/proj"⟩ regTwo tabS1 rfl
  exact ⟨rfl, h.1.1.trans rfl, h.1.2.2, h.2.2.2⟩

theorem handleMessage_start (s : ProcState) :
    handleMessage mkStart s =
      ({ s with accumulatedContent := [], isStreaming := true,
                messages := s.messages ++ [mkStart],
                rawJsonlOutput := s.rawJsonlOutput ++ [stringify mkStart] },
       [PEvent.streamingChange true s.currentSessionId]) := by
  simp [handleMessage, dispatchMsg, mkStart, typeIs, Json.getField, List.lookup]

theorem handleMessage_frag (i : Int) (c : String) (s : ProcState) (hc : c ≠ "") :
    handleMessage (mkFragMsg i c) s =
      ({ s with
           messages := s.messages ++
             [fragLogged i c (((lookupAcc s.accumulatedContent (fragKey i)).getD "") ++ c)],
           rawJsonlOutput := s.rawJsonlOutput ++
             [stringify (fragLogged i c
               (((lookupAcc s.accumulatedContent (fragKey i)).getD "") ++ c))],
           accumulatedContent := setAcc s.accumulatedContent (fragKey i)
             (((lookupAcc s.accumulatedContent (fragKey i)).getD "") ++ c) }, []) := by
  have hcb : (c != "") = true := by simpa using hc
  simp [handleMessage, dispatchMsg, mkFragMsg, fragLogged, fragKey, typeIs,
    Json.getField, List.lookup, processFrags, processFrag, jsTruthyV, hcb,
    jsStr, Json.setField, setFieldList]

theorem handleMessage_frag_empty (i : Int) (s : ProcState) :
    handleMessage (mkFragMsg i "") s =
      ({ s with messages := s.messages ++ [mkFragMsg i ""],
                rawJsonlOutput := s.rawJsonlOutput ++ [stringify (mkFragMsg i "")] },
       []) := by
  simp [handleMessage, dispatchMsg, mkFragMsg, typeIs, Json.getField,
    List.lookup, processFrags, processFrag, jsTruthyV, Json.setField, setFieldList]

theorem ingestList_fst_cons (m : Json) (ms : List Json) (s : ProcState) :
    (ingestList (m :: ms) s).fst = (ingestList ms (handleMessage m s).fst).fst := rfl

theorem frags_buffer (i : Int) (cs : List String) :
    ∀ s : ProcState,
      (lookupAcc (ingestList (cs.map (mkFragMsg i)) s).fst.accumulatedContent
         (fragKey i)).getD "" =
        ((lookupAcc s.accumulatedContent (fragKey i)).getD "") ++ concatAll cs := by
  induction cs with
  | nil => intro s; simp [ingestList, concatAll]
  | cons c rest ih =>
    intro s
    rw [List.map_cons, ingestList_fst_cons]
    by_cases hc : c = ""
    · subst hc
      rw [handleMessage_frag_empty, ih]
      simp [concatAll]
    · rw [handleMessage_frag i c s hc, ih]
      simp only [lookupAcc_setAcc, Option.getD_some, concatAll, String.append_assoc]

/-- C2 (amended): within one `start`-opened span, for fragments of one
call index the buffer accumulates the ordered concatenation of their
content deltas, and the `accumulated_content` attached to the final
fragment equals that concatenation, provided the final fragment's content
is non-empty (a JS-falsy empty delta is skipped entirely: it contributes
nothing to the buffer and receives no `accumulated_content` — see the
counterexample); ingesting `start` resets the accumulation buffer to
empty. -/
theorem accumulated_content_concatenates_fragments
    (i : Int) (cs : List String) (c : String) (s : ProcState) (hc : c ≠ "") :
    ((ingestList (mkStart :: (cs ++ [c]).map (mkFragMsg i)) s).fst.messages.getLast?.bind
        firstFragAcc = some (Json.str (concatAll cs ++ c))) ∧
    lookupAcc (ingestList (mkStart :: (cs ++ [c]).map (mkFragMsg i)) s).fst.accumulatedContent
        (fragKey i) = some (concatAll cs ++ c) ∧
    (handleMessage mkStart s).fst.accumulatedContent = [] := by
  have h3 : (handleMessage mkStart s).fst.accumulatedContent = [] := by
    rw [handleMessage_start]
  have hbuf : (lookupAcc (ingestList (cs.map (mkFragMsg i))
      (handleMessage mkStart s).fst).fst.accumulatedContent (fragKey i)).getD ""
      = concatAll cs := by
    rw [frags_buffer i cs (handleMessage mkStart s).fst, h3]
    simp [lookupAcc]
  have hsplit : (ingestList (mkStart :: (cs ++ [c]).map (mkFragMsg i)) s).fst
      = (handleMessage (mkFragMsg i c)
          (ingestList (cs.map (mkFragMsg i)) (handleMessage mkStart s).fst).fst).fst := by
    rw [ingestList_fst_cons, List.map_append, ingestList_append]
    rfl
  rw [hsplit, handleMessage_frag i c _ hc, hbuf]
  refine ⟨?_, ?_, h3⟩
  · rw [List.getLast?_concat]
    simp [firstFragAcc, fragLogged, Json.getField, List.lookup]
  · exact lookupAcc_setAcc _ _ _

/-- Witness for C2 at the spec's example deltas `"Hel"`, `"lo"`. -/
theorem accumulated_content_concatenates_fragments_witness :
    ("lo" : String) ≠ "" ∧
    (ingestList [mkStart, mkFragMsg 0 "Hel", mkFragMsg 0 "lo"]
        initProc).fst.messages.getLast?.bind firstFragAcc =
      some (Json.str "Hello") :=
  ⟨by decide,
   (accumulated_content_concatenates_fragments 0 ["Hel"] "lo" initProc (by decide)).1⟩

/-- C2 (counterexample): after `start`, a fragment `"a"` and then a
fragment with empty content at the same index, the final fragment
carries no `accumulated_content` at all — while the claim, which
quantifies over all fragment sequences, expects the concatenation
`"a" ++ "" = "a"` to be attached to it. -/
theorem no_accumulated_content_on_empty_final_fragment :
    ((ingestList [mkStart, mkFragMsg 0 "a", mkFragMsg 0 ""]
        initProc).fst.messages.getLast?.bind firstFragAcc = none) ∧
    ((ingestList [mkStart, mkFragMsg 0 "a", mkFragMsg 0 ""]
        initProc).fst.messages.getLast?.bind firstFragAcc ≠
      some (Json.str (concatAll ["a", ""]))) := by
  refine ⟨rfl, ?_⟩
  intro hcon
  rw [show (ingestList [mkStart, mkFragMsg 0 "a", mkFragMsg 0 ""]
      initProc).fst.messages.getLast?.bind firstFragAcc = none from rfl] at hcon
  exact Option.noConfusion hcon
